import Mathlib

/-!
Verification of the onos-config configuration-state core against its
natural-language specification.

The development embeds, as executable Lean definitions:
  * the TypedValue wire codec (gnmi wire values to/from native typed values),
    modelled from the spec since only its tests live in the source tree;
  * the snapshot-identifier functions from pkg/types/snapshot/device/types.go;
  * the diagnostics streaming surface from pkg/northbound/diags/diags.go
    (GetOpState, ListNetworkChanges, ListDeviceChanges), with the select
    loops embedded as recursion over a serialized input stream;
  * the ChangeLog watch/replay contract and the wildcard matcher, modelled
    from the spec since their store implementations are not in the tree.
-/

namespace OnosConfig

/-! ## Wire side: gnmi typed values -/

/-- Wire-side scalar values (the scalar kinds of `gnmi.TypedValue`).
Floats are carried opaquely by their 32-bit pattern: the codec performs no
floating-point arithmetic, it only moves the payload between representations. -/
inductive GnmiScalar where
  | stringVal (s : String)
  | intVal (i : Int)
  | uintVal (u : Nat)
  | boolVal (b : Bool)
  | bytesVal (bs : List Nat)
  | floatVal (bits : Nat)
  | decimalVal (digits : Int) (precision : Nat)
  | asciiVal (s : String)
  deriving DecidableEq

/-- A full gnmi wire value: a scalar, a leaf list of scalars
(`gnmi.ScalarArray`), or the explicit empty wire value. -/
inductive GnmiValue where
  | scalar (v : GnmiScalar)
  | leaflist (elems : List GnmiScalar)
  | empty
  deriving DecidableEq

/-! ## Native side: devicechange.TypedValue

The Go struct is `TypedValue{Bytes []byte, Type ValueType, TypeOpts []int}`:
the type tag is open-ended (any integer), the payload is a byte buffer
interpreted according to the tag. The embedding keeps the open tag as a
`Nat` and replaces the raw byte buffer by a typed payload; a tag/payload
combination that disagrees (impossible to distinguish in Go, where the
buffer is reinterpreted) is treated as an unsupported value by the encoder. -/

/-- Payload of a native scalar value. -/
inductive ScalarPayload where
  | str (s : String)
  | int (v : Int)
  | uint (v : Nat)
  | bool (b : Bool)
  | bytes (bs : List Nat)
  | float (bits : Nat)
  | decimal (digits : Int) (precision : Nat)
  deriving DecidableEq

/-- Payload of a native typed value: empty, a scalar, or a leaf list. -/
inductive Payload where
  | empty
  | scalar (p : ScalarPayload)
  | list (elems : List ScalarPayload)
  deriving DecidableEq

/-- Native typed value: open type tag, payload, and type options
(the width metadata for integer values). -/
structure TypedValue where
  typ : Nat
  payload : Payload
  typeOpts : List Nat
  deriving DecidableEq

/-- `devicechange.ValueType` enum numerals. -/
def ValueType_EMPTY : Nat := 0

def ValueType_STRING : Nat := 1

def ValueType_INT : Nat := 2

def ValueType_UINT : Nat := 3

def ValueType_BOOL : Nat := 4

def ValueType_DECIMAL : Nat := 5

def ValueType_FLOAT : Nat := 6

def ValueType_BYTES : Nat := 7

def ValueType_LEAFLIST_STRING : Nat := 8

def ValueType_LEAFLIST_INT : Nat := 9

def ValueType_LEAFLIST_UINT : Nat := 10

def ValueType_LEAFLIST_BOOL : Nat := 11

def ValueType_LEAFLIST_DECIMAL : Nat := 12

def ValueType_LEAFLIST_FLOAT : Nat := 13

def ValueType_LEAFLIST_BYTES : Nat := 14

/-- Width constants `devicechange.WidthEight` .. `WidthSixtyFour`. -/
def WidthEight : Nat := 8

def WidthSixteen : Nat := 16

def WidthThirtyTwo : Nat := 32

def WidthSixtyFour : Nat := 64

/-- The relevant part of `modelregistry.ReadWritePathElem`: the expected value
type and the type options (expected width) used as a decode hint. -/
structure PathElemHint where
  valueType : Nat
  typeOpts : List Nat
  deriving DecidableEq

/-- Modelled from the spec: width chosen when decoding a wire integer. Without
a hint the width defaults to the widest representation (64); with a hint the
width metadata is set from the hint's type options. -/
def hintWidth (modelType : Option PathElemHint) : Nat :=
  match modelType with
  | some h => h.typeOpts.headD WidthSixtyFour
  | none => WidthSixtyFour

/-- Native scalar payload carried by each wire scalar. An ascii wire scalar
carries the same native payload as a string one (Test_ascii: the ascii/string
distinction does not survive decoding). -/
def scalarPayload : GnmiScalar → ScalarPayload
  | .stringVal s => .str s
  | .asciiVal s => .str s
  | .intVal i => .int i
  | .uintVal u => .uint u
  | .boolVal b => .bool b
  | .bytesVal bs => .bytes bs
  | .floatVal bits => .float bits
  | .decimalVal d p => .decimal d p

/-- The leaf-list `ValueType` tag a wire scalar belongs to. Ascii elements
land in a string leaf list (Test_asciiList). -/
def leaflistTag : GnmiScalar → Nat
  | .stringVal _ => ValueType_LEAFLIST_STRING
  | .asciiVal _ => ValueType_LEAFLIST_STRING
  | .intVal _ => ValueType_LEAFLIST_INT
  | .uintVal _ => ValueType_LEAFLIST_UINT
  | .boolVal _ => ValueType_LEAFLIST_BOOL
  | .bytesVal _ => ValueType_LEAFLIST_BYTES
  | .floatVal _ => ValueType_LEAFLIST_FLOAT
  | .decimalVal _ _ => ValueType_LEAFLIST_DECIMAL

/-- Modelled from the spec: `values.GnmiTypedValueToNativeType` (its source is
not under src/, only its tests). Decodes a wire value into a native typed
value; integer widths come from the optional model-registry hint and default
to the widest width; ascii decodes to a string-typed value (Test_ascii); a
leaf list must be uniform and nonempty; unknown wire shapes are decode
errors, never silent defaults. -/
def GnmiTypedValueToNativeType (w : GnmiValue) (modelType : Option PathElemHint) :
    Except String TypedValue :=
  match w with
  | .empty => .ok ⟨ValueType_EMPTY, .empty, []⟩
  | .scalar (.stringVal s) => .ok ⟨ValueType_STRING, .scalar (.str s), []⟩
  | .scalar (.asciiVal s) => .ok ⟨ValueType_STRING, .scalar (.str s), []⟩
  | .scalar (.intVal i) => .ok ⟨ValueType_INT, .scalar (.int i), [hintWidth modelType]⟩
  | .scalar (.uintVal u) => .ok ⟨ValueType_UINT, .scalar (.uint u), [hintWidth modelType]⟩
  | .scalar (.boolVal b) => .ok ⟨ValueType_BOOL, .scalar (.bool b), []⟩
  | .scalar (.bytesVal bs) => .ok ⟨ValueType_BYTES, .scalar (.bytes bs), []⟩
  | .scalar (.floatVal bits) => .ok ⟨ValueType_FLOAT, .scalar (.float bits), []⟩
  | .scalar (.decimalVal d p) => .ok ⟨ValueType_DECIMAL, .scalar (.decimal d p), []⟩
  | .leaflist [] => .error "Unsupported empty leaf list"
  | .leaflist (e :: es) =>
      if es.all (fun x => leaflistTag x == leaflistTag e) then
        .ok ⟨leaflistTag e, .list ((e :: es).map scalarPayload), []⟩
      else .error "Unsupported mixed leaf list"

/-- Encoding of one leaf-list element for the given leaf-list type tag.
A string leaf list always re-serializes its elements as `string_val`
(Test_asciiList). -/
def encodeListElem (tag : Nat) (p : ScalarPayload) : Except String GnmiScalar :=
  match tag, p with
  | 8, .str s => .ok (.stringVal s)
  | 9, .int i => .ok (.intVal i)
  | 10, .uint u => .ok (.uintVal u)
  | 11, .bool b => .ok (.boolVal b)
  | 12, .decimal d p => .ok (.decimalVal d p)
  | 13, .float bits => .ok (.floatVal bits)
  | 14, .bytes bs => .ok (.bytesVal bs)
  | t, _ => .error ("Unsupported type " ++ toString t)

/-- Encoding of a whole leaf-list payload, first error wins. -/
def encodeListElems (tag : Nat) : List ScalarPayload → Except String (List GnmiScalar)
  | [] => .ok []
  | p :: ps =>
      match encodeListElem tag p, encodeListElems tag ps with
      | .ok g, .ok gs => .ok (g :: gs)
      | .error e, _ => .error e
      | .ok _, .error e => .error e

/-- Modelled from the spec: `values.NativeTypeToGnmiTypedValue` (its source is
not under src/, only its tests). Encodes a native typed value to the wire:
a zero-length bytes payload is an invalid-length error and a type tag outside
the known variant set is an unsupported-type error (Test_errors), and in both
cases there is no output value. -/
def NativeTypeToGnmiTypedValue (tv : TypedValue) : Except String GnmiValue :=
  match tv.typ, tv.payload with
  | 0, .empty => .ok .empty
  | 1, .scalar (.str s) => .ok (.scalar (.stringVal s))
  | 2, .scalar (.int i) => .ok (.scalar (.intVal i))
  | 3, .scalar (.uint u) => .ok (.scalar (.uintVal u))
  | 4, .scalar (.bool b) => .ok (.scalar (.boolVal b))
  | 5, .scalar (.decimal d p) => .ok (.scalar (.decimalVal d p))
  | 6, .scalar (.float bits) => .ok (.scalar (.floatVal bits))
  | 7, .scalar (.bytes bs) =>
      if bs.length = 0 then .error ("invalid TypedValue Length " ++ toString bs.length)
      else .ok (.scalar (.bytesVal bs))
  | 8, .list es =>
      match encodeListElems 8 es with
      | .ok gs => .ok (.leaflist gs)
      | .error e => .error e
  | 9, .list es =>
      match encodeListElems 9 es with
      | .ok gs => .ok (.leaflist gs)
      | .error e => .error e
  | 10, .list es =>
      match encodeListElems 10 es with
      | .ok gs => .ok (.leaflist gs)
      | .error e => .error e
  | 11, .list es =>
      match encodeListElems 11 es with
      | .ok gs => .ok (.leaflist gs)
      | .error e => .error e
  | 12, .list es =>
      match encodeListElems 12 es with
      | .ok gs => .ok (.leaflist gs)
      | .error e => .error e
  | 13, .list es =>
      match encodeListElems 13 es with
      | .ok gs => .ok (.leaflist gs)
      | .error e => .error e
  | 14, .list es =>
      match encodeListElems 14 es with
      | .ok gs => .ok (.leaflist gs)
      | .error e => .error e
  | t, _ => .error ("Unsupported type " ++ toString t)

/-! ## Native value constructors (the `devicechange.NewTypedValue*` API) -/

/-- `devicechange.NewTypedValueEmpty`. -/
def NewTypedValueEmpty : TypedValue := ⟨ValueType_EMPTY, .empty, []⟩

/-- `devicechange.NewTypedValueString`. -/
def NewTypedValueString (s : String) : TypedValue :=
  ⟨ValueType_STRING, .scalar (.str s), []⟩

/-- `devicechange.NewTypedValueInt`: value plus width metadata. -/
def NewTypedValueInt (v : Int) (width : Nat) : TypedValue :=
  ⟨ValueType_INT, .scalar (.int v), [width]⟩

/-- `devicechange.NewTypedValueUint`: value plus width metadata. -/
def NewTypedValueUint (v : Nat) (width : Nat) : TypedValue :=
  ⟨ValueType_UINT, .scalar (.uint v), [width]⟩

/-- `devicechange.NewTypedValueBool`. -/
def NewTypedValueBool (b : Bool) : TypedValue :=
  ⟨ValueType_BOOL, .scalar (.bool b), []⟩

/-- `devicechange.NewTypedValueDecimal64`: digits and precision kept
as independent fields. -/
def NewTypedValueDecimal64 (digits : Int) (precision : Nat) : TypedValue :=
  ⟨ValueType_DECIMAL, .scalar (.decimal digits precision), []⟩

/-- `devicechange.NewTypedValueFloat` (payload carried by bit pattern). -/
def NewTypedValueFloat (bits : Nat) : TypedValue :=
  ⟨ValueType_FLOAT, .scalar (.float bits), []⟩

/-- `devicechange.NewTypedValueBytes`. -/
def NewTypedValueBytes (bs : List Nat) : TypedValue :=
  ⟨ValueType_BYTES, .scalar (.bytes bs), []⟩

/-- `devicechange.NewLeafListString`. -/
def NewLeafListString (xs : List String) : TypedValue :=
  ⟨ValueType_LEAFLIST_STRING, .list (xs.map .str), []⟩

/-- `devicechange.NewLeafListInt`. -/
def NewLeafListInt (xs : List Int) : TypedValue :=
  ⟨ValueType_LEAFLIST_INT, .list (xs.map .int), []⟩

/-- `devicechange.NewLeafListUint`. -/
def NewLeafListUint (xs : List Nat) : TypedValue :=
  ⟨ValueType_LEAFLIST_UINT, .list (xs.map .uint), []⟩

/-- `devicechange.NewLeafListBool`. -/
def NewLeafListBool (xs : List Bool) : TypedValue :=
  ⟨ValueType_LEAFLIST_BOOL, .list (xs.map .bool), []⟩

/-- `devicechange.NewLeafListDecimal64`: one (digits, precision) pair per
element. -/
def NewLeafListDecimal64 (xs : List (Int × Nat)) : TypedValue :=
  ⟨ValueType_LEAFLIST_DECIMAL, .list (xs.map fun dp => .decimal dp.1 dp.2), []⟩

/-- `devicechange.NewLeafListFloat` (payloads carried by bit pattern). -/
def NewLeafListFloat (xs : List Nat) : TypedValue :=
  ⟨ValueType_LEAFLIST_FLOAT, .list (xs.map .float), []⟩

/-- `devicechange.NewLeafListBytes`. -/
def NewLeafListBytes (xs : List (List Nat)) : TypedValue :=
  ⟨ValueType_LEAFLIST_BYTES, .list (xs.map .bytes), []⟩

/-! ## Round-trip apparatus -/

/-- The decode hint a value's own width metadata prescribes: integer values
carry their width in the hint, every other type needs none. -/
def hintFor (tv : TypedValue) : Option PathElemHint :=
  if tv.typ = ValueType_INT ∨ tv.typ = ValueType_UINT then
    some ⟨tv.typ, tv.typeOpts⟩
  else none

/-- Decode-after-encode: encode a native value, then decode the wire value
back with the hint the value's own metadata prescribes. -/
def decenc (tv : TypedValue) : Except String TypedValue :=
  (NativeTypeToGnmiTypedValue tv).bind fun w => GnmiTypedValueToNativeType w (hintFor tv)

/-- Encode-after-decode: decode a wire value without a hint, then encode the
native result back to the wire. -/
def encdec (w : GnmiValue) : Except String GnmiValue :=
  (GnmiTypedValueToNativeType w none).bind NativeTypeToGnmiTypedValue

/-- Valid wire values (the domain of the round-trip law): bytes scalars are
nonempty (spec invariant: bytes length > 0 for valid bytes), leaf lists are
nonempty and uniform. -/
def validWire : GnmiValue → Bool
  | .empty => true
  | .scalar (.bytesVal bs) => !bs.isEmpty
  | .scalar _ => true
  | .leaflist [] => false
  | .leaflist (e :: es) => es.all (fun x => leaflistTag x == leaflistTag e)

/-- The canonical wire scalar for a native scalar payload: how the encoder
re-serializes it (strings as `string_val`, never `ascii_val`). -/
def canonScalar : ScalarPayload → GnmiScalar
  | .str s => .stringVal s
  | .int i => .intVal i
  | .uint u => .uintVal u
  | .bool b => .boolVal b
  | .bytes bs => .bytesVal bs
  | .float bits => .floatVal bits
  | .decimal d p => .decimalVal d p

/-- Rewrites every ascii-tagged wire component as the string-tagged component
with the same payload; the identity on ascii-free wire values. -/
def deAsciiScalar : GnmiScalar → GnmiScalar
  | .asciiVal s => .stringVal s
  | g => g

/-- `deAsciiScalar` lifted to whole wire values. -/
def deAscii : GnmiValue → GnmiValue
  | .scalar g => .scalar (deAsciiScalar g)
  | .leaflist es => .leaflist (es.map deAsciiScalar)
  | .empty => .empty

/-! ## Snapshot identifiers (pkg/types/snapshot/device/types.go)

Strings are embedded as lists of characters; `strings.Index` on the one-byte
separator returns the first index of the separator character or -1. -/

/-- The snapshot-id separator constant. -/
def separator : Char := ':'

/-- Go `strings.Index s sep` for the single-character separator: index of the
first occurrence, or -1 when absent. -/
def stringsIndex (s : List Char) (c : Char) : Int :=
  if c ∈ s then (s.findIdx (· == c) : Int) else -1

/-- `GetSnapshotID`: `fmt.Sprintf("%s%s%s", networkID, separator, deviceID)`. -/
def GetSnapshotID (networkID deviceID : List Char) : List Char :=
  networkID ++ separator :: deviceID

/-- `ID.GetDeviceID`: the substring after the first separator occurrence. -/
def GetDeviceID (i : List Char) : List Char :=
  i.drop (stringsIndex i separator + 1).toNat

/-! ## Wildcard matcher

`utils.MatchWildcardChNameRegexp` is not under src/; modelled from the spec:
matching is anchored full-string, with the star character as a multi-character
wildcard and every other pattern character literal. -/

/-- Matching of the rest of the pattern against every suffix of the
candidate: how a star consumes any (possibly empty) character run. -/
def anySuffix (m : List Char → Bool) : List Char → Bool
  | [] => m []
  | c :: s2 => m (c :: s2) || anySuffix m s2

/-- Modelled from the spec: anchored glob matching of a pattern against a
candidate string, star matching any (possibly empty) character run and every
other pattern character matching literally. -/
def globMatch : List Char → List Char → Bool
  | [], s => s.isEmpty
  | p :: ps, s =>
      if p = '*' then anySuffix (globMatch ps) s
      else
        match s with
        | [] => false
        | c :: s2 => p == c && globMatch ps s2

/-- Modelled from the spec: `utils.MatchWildcardChNameRegexp` translates the
glob pattern once into a matcher; the matcher tests a candidate identifier. -/
def MatchWildcardChNameRegexp (pattern : String) : String → Bool :=
  fun s => globMatch pattern.data s.data

/-! ## ChangeLog records and watch options -/

/-- A network-scope change record; only the identifier takes part in
matching and de-duplication, the rest of the record is opaque here. -/
structure NetworkChange where
  id : String
  deriving DecidableEq

/-- A watch option of the network/device change stores; the only option the
diagnostics surface uses is replay. -/
inductive WatchOption where
  | replay
  deriving DecidableEq

/-- diags.go ListNetworkChanges lines 144-148: the watch options are empty
unless the request's WithoutReplay flag is false, in which case WithReplay
is appended. -/
def networkWatchOpts (withoutReplay : Bool) : List WatchOption :=
  if !withoutReplay then [.replay] else []

/-- diags.go ListDeviceChanges lines 234-237: identical option plumbing for
the device-change store. -/
def deviceWatchOpts (withoutReplay : Bool) : List WatchOption :=
  if !withoutReplay then [.replay] else []

/-- Whether a watch-option list enables replay. -/
def replayEnabled (opts : List WatchOption) : Bool :=
  opts.contains .replay

/-- Modelled from the spec: the store's Watch delivery for one key (the store
implementations are not under src/). The live subscription is established
first, queueing events appended after subscription; with replay enabled the
existing records are delivered oldest-to-newest and the queued live events
are then flushed, de-duplicated by identifier against the replayed records;
with replay disabled only the live events are delivered. -/
def watchDeliver (existing appended : List NetworkChange) (opts : List WatchOption) :
    List NetworkChange :=
  if replayEnabled opts then
    existing ++ appended.filter (fun e => !existing.any (fun r => r.id == e.id))
  else appended

/-! ## Operational state (diags.go GetOpState) -/

/-- `admin.Type` enum of the diagnostics responses. -/
inductive EventType where
  | NONE
  | ADDED
  | UPDATED
  | REMOVED
  deriving DecidableEq

/-- `devicechangetypes.PathValue`: a path bound to a typed value. -/
structure PathValue where
  path : String
  value : TypedValue
  deriving DecidableEq

/-- One `OpStateResponse` message of the GetOpState stream. -/
structure OpStateResponse where
  type : EventType
  pathvalue : PathValue
  deriving DecidableEq

/-- A dispatcher operational-state event: subject device, event kind
(spec: ADDED, CHANGED or REMOVED — carried but ignored by GetOpState),
path and value. -/
structure OpStateEvent where
  subject : String
  kind : EventType
  path : String
  value : TypedValue
  deriving DecidableEq

/-- The operational-state cache `map[device.ID]map[string]*TypedValue`,
embedded as an association list of devices to path/value entries. -/
def OpStateCache := List (String × List (String × TypedValue))

/-- Cache lookup for one device (the Go two-valued map read). -/
def lookupCache (cache : OpStateCache) (deviceId : String) :
    Option (List (String × TypedValue)) :=
  (cache.find? (fun p => p.1 == deviceId)).map Prod.snd

/-- diags.go GetOpState lines 77-88: the initial cache drain sends one
response per cache entry, each tagged with event type NONE. -/
def opStateSnapshot (entries : List (String × TypedValue)) : List OpStateResponse :=
  entries.map fun pv => ⟨EventType.NONE, ⟨pv.1, pv.2⟩⟩

/-- One serialized arrival at the GetOpState select loop: either a dispatcher
event on the listener channel or the firing of the stream context. -/
inductive LoopInput where
  | event (e : OpStateEvent)
  | cancelled
  deriving DecidableEq

/-- How a select loop run ended: whether the function returned, whether the
subscription registration was released (listener unregistered or watch
context closed), and whether a non-nil error was returned. Transport send
failures are outside this model; sends succeed. -/
structure LoopExit where
  finished : Bool
  released : Bool
  errored : Bool
  deriving DecidableEq

/-- The live response GetOpState builds from a dispatcher event
(diags.go lines 108-115): always tagged ADDED, whatever the event kind. -/
def mkOpStateLiveResponse (e : OpStateEvent) : OpStateResponse :=
  ⟨EventType.ADDED, ⟨e.path, e.value⟩⟩

/-- diags.go GetOpState subscribe loop (lines 98-125) over a serialized input
stream: an event for a different device is skipped; a matching event is sent
tagged ADDED; when the stream context fires the listener is unregistered and
the function returns nil, ignoring everything after; exhausting the inputs
leaves the loop blocked in its select. -/
def opStateSubscribeLoop (deviceId : String) : List LoopInput →
    List OpStateResponse × LoopExit
  | [] => ([], ⟨false, false, false⟩)
  | .cancelled :: _ => ([], ⟨true, true, false⟩)
  | .event e :: rest =>
      if e.subject == deviceId then
        let r := opStateSubscribeLoop deviceId rest
        (mkOpStateLiveResponse e :: r.1, r.2)
      else opStateSubscribeLoop deviceId rest

/-- The outcome of one GetOpState call: the responses sent, and how the
subscribe loop ended (for the non-subscribe form, a plain finished exit). -/
structure GetOpStateRun where
  sent : List OpStateResponse
  outcome : LoopExit
  deriving DecidableEq

/-- diags.go GetOpState (lines 71-131): an unknown device is an error naming
the device, before anything is sent; a known device first gets the full cache
drained with NONE-tagged responses; with Subscribe set the select loop then
runs over the serialized inputs. -/
def GetOpState (cache : OpStateCache) (deviceId : String) (subscribe : Bool)
    (inputs : List LoopInput) : Except String GetOpStateRun :=
  match lookupCache cache deviceId with
  | none => .error ("no Operational State cache available for " ++ deviceId)
  | some entries =>
      if subscribe then
        let r := opStateSubscribeLoop deviceId inputs
        .ok ⟨opStateSnapshot entries ++ r.1, r.2⟩
      else .ok ⟨opStateSnapshot entries, ⟨true, false, false⟩⟩

/-! ## Change-listing select loops (diags.go ListNetworkChanges /
ListDeviceChanges)

Each loop is embedded as recursion over a serialized input stream: channel
deliveries, channel close, and context firing. The deferred ctx.Close() runs
on every function return, so every finished exit has its registration
released. -/

/-- One serialized arrival at a change-listing select loop. -/
inductive WatchInput where
  | event (c : NetworkChange)
  | closed
  | cancelled
  deriving DecidableEq

/-- diags.go ListNetworkChanges subscribe loop (lines 160-190): each received
change is sent only when the wildcard matcher accepts its identifier,
non-matching changes are skipped silently; channel close breaks out and the
function returns nil; context firing returns nil; both release the watch
context through the deferred Close. -/
def listNetworkChangesLoop (pattern : String) : List WatchInput →
    List NetworkChange × LoopExit
  | [] => ([], ⟨false, false, false⟩)
  | .cancelled :: _ => ([], ⟨true, true, false⟩)
  | .closed :: _ => ([], ⟨true, true, false⟩)
  | .event c :: rest =>
      if MatchWildcardChNameRegexp pattern c.id then
        let r := listNetworkChangesLoop pattern rest
        (c :: r.1, r.2)
      else listNetworkChangesLoop pattern rest

/-- diags.go ListNetworkChanges list phase (lines 191-221): the same loop
shape over the List channel, with the same matcher-based skipping. -/
def listNetworkChangesListPhase (pattern : String) : List WatchInput →
    List NetworkChange × LoopExit
  | [] => ([], ⟨false, false, false⟩)
  | .cancelled :: _ => ([], ⟨true, true, false⟩)
  | .closed :: _ => ([], ⟨true, true, false⟩)
  | .event c :: rest =>
      if MatchWildcardChNameRegexp pattern c.id then
        let r := listNetworkChangesListPhase pattern rest
        (c :: r.1, r.2)
      else listNetworkChangesListPhase pattern rest

/-- diags.go ListDeviceChanges subscribe loop (lines 239-267): every received
device change is sent (no matcher); channel close and context firing end the
loop as in the network case. -/
def listDeviceChangesLoop : List WatchInput → List NetworkChange × LoopExit
  | [] => ([], ⟨false, false, false⟩)
  | .cancelled :: _ => ([], ⟨true, true, false⟩)
  | .closed :: _ => ([], ⟨true, true, false⟩)
  | .event c :: rest =>
      let r := listDeviceChangesLoop rest
      (c :: r.1, r.2)

/-! ## Helper lemmas -/

/-- First index of the separator in a string that starts with a
separator-free block. -/
theorem findIdx_append_sep (c : Char) (l r : List Char) (h : c ∉ l) :
    (l ++ c :: r).findIdx (· == c) = l.length := by
  induction l with
  | nil => simp [List.findIdx_cons]
  | cons a l ih =>
      have ha : (a == c) = false := by
        simp only [beq_eq_false_iff_ne]
        intro e
        exact h (e ▸ List.mem_cons_self a l)
      have h2 : c ∉ l := fun hm => h (List.mem_cons_of_mem a hm)
      simp [List.findIdx_cons, ha, ih h2]

/-- Element-wise leaf-list encoding of a mapped list. -/
theorem encodeListElems_map {α : Type} (tag : Nat) (emb : α → ScalarPayload)
    (wire : α → GnmiScalar) (henc : ∀ x, encodeListElem tag (emb x) = .ok (wire x))
    (xs : List α) : encodeListElems tag (xs.map emb) = .ok (xs.map wire) := by
  induction xs with
  | nil => rfl
  | cons x xs ih => simp [encodeListElems, henc x, ih]

/-- Uniformity of the leaf-list tag over a mapped list. -/
theorem all_leaflistTag_map {α : Type} (wire : α → GnmiScalar) (t : Nat)
    (h : ∀ x, leaflistTag (wire x) = t) (xs : List α) :
    (xs.map wire).all (fun g => leaflistTag g == t) = true := by
  simp only [List.all_eq_true]
  intro g hg
  obtain ⟨x, _, rfl⟩ := List.mem_map.mp hg
  simp [h x]

/-- Decoding the wire elements back to their payloads. -/
theorem map_scalarPayload_map {α : Type} (emb : α → ScalarPayload)
    (wire : α → GnmiScalar) (h : ∀ x, scalarPayload (wire x) = emb x) (xs : List α) :
    (xs.map wire).map scalarPayload = xs.map emb := by
  induction xs with
  | nil => rfl
  | cons x xs ih => simp [h x, ih]

/-- Re-encoding a decoded leaf-list element canonicalizes ascii to string and
leaves everything else unchanged. -/
theorem encodeListElem_decoded (g : GnmiScalar) :
    encodeListElem (leaflistTag g) (scalarPayload g) = .ok (deAsciiScalar g) := by
  cases g <;> rfl

/-- Re-encoding a whole decoded leaf list. -/
theorem encodeListElems_decoded (t : Nat) (l : List GnmiScalar)
    (h : ∀ x ∈ l, leaflistTag x = t) :
    encodeListElems t (l.map scalarPayload) = .ok (l.map deAsciiScalar) := by
  induction l with
  | nil => rfl
  | cons g l ih =>
      have hg : leaflistTag g = t := h g (List.mem_cons_self g l)
      have hrest : ∀ x ∈ l, leaflistTag x = t := fun x hx => h x (List.mem_cons_of_mem g hx)
      have := encodeListElem_decoded g
      rw [hg] at this
      simp [encodeListElems, this, ih hrest]

/-- The encoder dispatches every leaf-list tag to its element encoder. -/
theorem encode_leaflistTag (e : GnmiScalar) (es : List ScalarPayload) (opts : List Nat) :
    NativeTypeToGnmiTypedValue ⟨leaflistTag e, .list es, opts⟩ =
      match encodeListElems (leaflistTag e) es with
      | .ok gs => .ok (.leaflist gs)
      | .error err => .error err := by
  cases e <;> rfl

/-- Decoding a uniformly-mapped nonempty wire leaf list. -/
theorem decode_leaflist_map {α : Type} (emb : α → ScalarPayload) (wire : α → GnmiScalar)
    (t : Nat) (htag : ∀ y, leaflistTag (wire y) = t)
    (hpay : ∀ y, scalarPayload (wire y) = emb y)
    (x : α) (xs : List α) (mt : Option PathElemHint) :
    GnmiTypedValueToNativeType (.leaflist ((x :: xs).map wire)) mt
      = .ok ⟨t, .list ((x :: xs).map emb), []⟩ := by
  rw [List.map_cons]
  show (if (xs.map wire).all (fun g => leaflistTag g == leaflistTag (wire x))
        then Except.ok
          (⟨leaflistTag (wire x), .list ((wire x :: xs.map wire).map scalarPayload), []⟩ :
            TypedValue)
        else Except.error "Unsupported mixed leaf list")
      = Except.ok ⟨t, .list ((x :: xs).map emb), []⟩
  rw [htag x, all_leaflistTag_map wire t htag xs, if_pos rfl, ← List.map_cons,
    map_scalarPayload_map emb wire hpay]

/-- Decode-after-encode is the identity on nonempty leaf lists built from one
uniform element embedding. -/
theorem decenc_leaflist_generic {α : Type} (emb : α → ScalarPayload)
    (wire : α → GnmiScalar) (x : α) (xs : List α)
    (henc : ∀ y, encodeListElem (leaflistTag (wire x)) (emb y) = .ok (wire y))
    (htag : ∀ y, leaflistTag (wire y) = leaflistTag (wire x))
    (hpay : ∀ y, scalarPayload (wire y) = emb y) :
    decenc ⟨leaflistTag (wire x), .list ((x :: xs).map emb), []⟩
      = .ok ⟨leaflistTag (wire x), .list ((x :: xs).map emb), []⟩ := by
  have henc2 := encodeListElems_map (leaflistTag (wire x)) emb wire henc (x :: xs)
  simp only [decenc]
  rw [encode_leaflistTag (wire x), henc2]
  show GnmiTypedValueToNativeType (.leaflist ((x :: xs).map wire))
      (hintFor ⟨leaflistTag (wire x), .list ((x :: xs).map emb), []⟩)
      = .ok ⟨leaflistTag (wire x), .list ((x :: xs).map emb), []⟩
  rw [decode_leaflist_map emb wire (leaflistTag (wire x)) htag hpay x xs]

/-! ## Claim theorems -/

/-- The subscribe loop over a pure event stream delivers exactly the matching
records, in order. -/
theorem listNetworkChangesLoop_filter (pat : String) (recs : List NetworkChange) :
    (listNetworkChangesLoop pat (recs.map .event)).1
      = recs.filter (fun c => MatchWildcardChNameRegexp pat c.id) := by
  induction recs with
  | nil => rfl
  | cons c recs ih =>
      simp only [List.map_cons, listNetworkChangesLoop, List.filter_cons]
      cases hm : MatchWildcardChNameRegexp pat c.id with
      | true => simp [hm, ih]
      | false => simp [hm, ih]

/-- The list phase over a pure event stream delivers exactly the matching
records, in order. -/
theorem listNetworkChangesListPhase_filter (pat : String) (recs : List NetworkChange) :
    (listNetworkChangesListPhase pat (recs.map .event)).1
      = recs.filter (fun c => MatchWildcardChNameRegexp pat c.id) := by
  induction recs with
  | nil => rfl
  | cons c recs ih =>
      simp only [List.map_cons, listNetworkChangesListPhase, List.filter_cons]
      cases hm : MatchWildcardChNameRegexp pat c.id with
      | true => simp [hm, ih]
      | false => simp [hm, ih]

/-- The subscribe loop never returns a non-nil error, whatever arrives. -/
theorem listNetworkChangesLoop_no_error (pat : String) (inputs : List WatchInput) :
    (listNetworkChangesLoop pat inputs).2.errored = false := by
  induction inputs with
  | nil => rfl
  | cons i rest ih =>
      cases i with
      | cancelled => rfl
      | closed => rfl
      | event c =>
          simp only [listNetworkChangesLoop]
          cases hm : MatchWildcardChNameRegexp pat c.id with
          | true => simp [hm, ih]
          | false => simp [hm, ih]

/-- The list phase never returns a non-nil error, whatever arrives. -/
theorem listNetworkChangesListPhase_no_error (pat : String) (inputs : List WatchInput) :
    (listNetworkChangesListPhase pat inputs).2.errored = false := by
  induction inputs with
  | nil => rfl
  | cons i rest ih =>
      cases i with
      | cancelled => rfl
      | closed => rfl
      | event c =>
          simp only [listNetworkChangesListPhase]
          cases hm : MatchWildcardChNameRegexp pat c.id with
          | true => simp [hm, ih]
          | false => simp [hm, ih]

/-- C1 (corrected): codec round trip. Decoding — with the width hint the
value's own metadata prescribes — the wire encoding of every representable
TypedValue (every scalar variant, every Leaflist element type, Decimal with
arbitrary digits and precision, integers and unsigned integers of every
width) yields the value back; and encoding the decode of every valid wire
value yields the wire value back with ascii-tagged components re-tagged as
string, hence yields the wire value itself whenever it carries no ascii tag.
The unamended claim fails on ascii-tagged wire values (see the
counterexample): the ascii/string distinction does not survive decoding. -/
theorem C1_roundtrip_amended :
    (decenc NewTypedValueEmpty = .ok NewTypedValueEmpty)
    ∧ (∀ s, decenc (NewTypedValueString s) = .ok (NewTypedValueString s))
    ∧ (∀ v w, decenc (NewTypedValueInt v w) = .ok (NewTypedValueInt v w))
    ∧ (∀ v w, decenc (NewTypedValueUint v w) = .ok (NewTypedValueUint v w))
    ∧ (∀ b, decenc (NewTypedValueBool b) = .ok (NewTypedValueBool b))
    ∧ (∀ d p, decenc (NewTypedValueDecimal64 d p) = .ok (NewTypedValueDecimal64 d p))
    ∧ (∀ bits, decenc (NewTypedValueFloat bits) = .ok (NewTypedValueFloat bits))
    ∧ (∀ bs, bs ≠ [] → decenc (NewTypedValueBytes bs) = .ok (NewTypedValueBytes bs))
    ∧ (∀ xs, xs ≠ [] → decenc (NewLeafListString xs) = .ok (NewLeafListString xs))
    ∧ (∀ xs, xs ≠ [] → decenc (NewLeafListInt xs) = .ok (NewLeafListInt xs))
    ∧ (∀ xs, xs ≠ [] → decenc (NewLeafListUint xs) = .ok (NewLeafListUint xs))
    ∧ (∀ xs, xs ≠ [] → decenc (NewLeafListBool xs) = .ok (NewLeafListBool xs))
    ∧ (∀ xs, xs ≠ [] → decenc (NewLeafListDecimal64 xs) = .ok (NewLeafListDecimal64 xs))
    ∧ (∀ xs, xs ≠ [] → decenc (NewLeafListFloat xs) = .ok (NewLeafListFloat xs))
    ∧ (∀ xs, xs ≠ [] → decenc (NewLeafListBytes xs) = .ok (NewLeafListBytes xs))
    ∧ (∀ w, validWire w = true → encdec w = .ok (deAscii w)) := by
  refine ⟨rfl, fun s => rfl, fun v w => rfl, fun v w => rfl, fun b => rfl,
    fun d p => rfl, fun bits => rfl, ?_, ?_, ?_, ?_, ?_, ?_, ?_, ?_, ?_⟩
  · intro bs hbs
    have hb : ¬ (bs.length = 0) := by simpa [List.length_eq_zero] using hbs
    show (if bs.length = 0
          then Except.error ("invalid TypedValue Length " ++ toString bs.length)
          else Except.ok (GnmiValue.scalar (GnmiScalar.bytesVal bs))).bind
        (fun w => GnmiTypedValueToNativeType w (hintFor (NewTypedValueBytes bs)))
      = Except.ok (NewTypedValueBytes bs)
    rw [if_neg hb]
    rfl
  · intro xs hxs
    obtain ⟨x, xs, rfl⟩ := List.exists_cons_of_ne_nil hxs
    exact decenc_leaflist_generic ScalarPayload.str GnmiScalar.stringVal x xs
      (fun y => rfl) (fun y => rfl) (fun y => rfl)
  · intro xs hxs
    obtain ⟨x, xs, rfl⟩ := List.exists_cons_of_ne_nil hxs
    exact decenc_leaflist_generic ScalarPayload.int GnmiScalar.intVal x xs
      (fun y => rfl) (fun y => rfl) (fun y => rfl)
  · intro xs hxs
    obtain ⟨x, xs, rfl⟩ := List.exists_cons_of_ne_nil hxs
    exact decenc_leaflist_generic ScalarPayload.uint GnmiScalar.uintVal x xs
      (fun y => rfl) (fun y => rfl) (fun y => rfl)
  · intro xs hxs
    obtain ⟨x, xs, rfl⟩ := List.exists_cons_of_ne_nil hxs
    exact decenc_leaflist_generic ScalarPayload.bool GnmiScalar.boolVal x xs
      (fun y => rfl) (fun y => rfl) (fun y => rfl)
  · intro xs hxs
    obtain ⟨x, xs, rfl⟩ := List.exists_cons_of_ne_nil hxs
    exact @decenc_leaflist_generic (Int × Nat) (fun dp => ScalarPayload.decimal dp.1 dp.2)
      (fun dp => GnmiScalar.decimalVal dp.1 dp.2) x xs
      (fun y => rfl) (fun y => rfl) (fun y => rfl)
  · intro xs hxs
    obtain ⟨x, xs, rfl⟩ := List.exists_cons_of_ne_nil hxs
    exact decenc_leaflist_generic ScalarPayload.float GnmiScalar.floatVal x xs
      (fun y => rfl) (fun y => rfl) (fun y => rfl)
  · intro xs hxs
    obtain ⟨x, xs, rfl⟩ := List.exists_cons_of_ne_nil hxs
    exact decenc_leaflist_generic ScalarPayload.bytes GnmiScalar.bytesVal x xs
      (fun y => rfl) (fun y => rfl) (fun y => rfl)
  · intro w hw
    cases w with
    | empty => rfl
    | scalar g =>
        cases g with
        | stringVal s => rfl
        | asciiVal s => rfl
        | intVal i => rfl
        | uintVal u => rfl
        | boolVal b => rfl
        | floatVal bits => rfl
        | decimalVal d p => rfl
        | bytesVal bs =>
            have hb : ¬ (bs.length = 0) := by
              simp only [validWire, Bool.not_eq_true'] at hw
              simpa [List.length_eq_zero, List.isEmpty_iff] using hw
            show (if bs.length = 0
                  then Except.error ("invalid TypedValue Length " ++ toString bs.length)
                  else Except.ok (GnmiValue.scalar (GnmiScalar.bytesVal bs)))
                = Except.ok (deAscii (.scalar (.bytesVal bs)))
            rw [if_neg hb]
            rfl
    | leaflist es =>
        cases es with
        | nil => exact Bool.noConfusion hw
        | cons e es =>
            simp only [validWire] at hw
            have hall : ∀ x ∈ e :: es, leaflistTag x = leaflistTag e := by
              intro x hx
              cases hx with
              | head => rfl
              | tail _ hx2 =>
                  simp only [List.all_eq_true, beq_iff_eq] at hw
                  exact hw x hx2
            show (if es.all (fun x => leaflistTag x == leaflistTag e)
                  then Except.ok
                    (⟨leaflistTag e, .list ((e :: es).map scalarPayload), []⟩ : TypedValue)
                  else Except.error "Unsupported mixed leaf list").bind
                NativeTypeToGnmiTypedValue
              = Except.ok (deAscii (.leaflist (e :: es)))
            rw [hw, if_pos rfl]
            show NativeTypeToGnmiTypedValue ⟨leaflistTag e, .list ((e :: es).map scalarPayload), []⟩
              = Except.ok (deAscii (.leaflist (e :: es)))
            rw [encode_leaflistTag e, encodeListElems_decoded (leaflistTag e) (e :: es) hall]
            rfl

/-- A valid ascii-tagged wire value on which the unamended C1 fails: its
decode re-encodes as the string-tagged wire value, not as itself. -/
theorem C1_ascii_counterexample :
    validWire (.scalar (.asciiVal "ascii")) = true
    ∧ (encdec (.scalar (.asciiVal "ascii"))).toOption
        = some (.scalar (.stringVal "ascii"))
    ∧ (encdec (.scalar (.asciiVal "ascii"))).toOption
        ≠ some (.scalar (.asciiVal "ascii")) := by
  refine ⟨rfl, rfl, ?_⟩
  decide

/-- Concrete instances of C1's amended round trip, discharging each of its
hypotheses: a nonempty bytes value, one nonempty leaf list per element type,
and a valid wire decimal for the encode-after-decode direction. -/
theorem C1_roundtrip_amended_witness :
    decenc (NewTypedValueBytes [1, 2, 3]) = .ok (NewTypedValueBytes [1, 2, 3])
    ∧ decenc (NewLeafListString ["abc", "def"]) = .ok (NewLeafListString ["abc", "def"])
    ∧ decenc (NewLeafListInt [100, 101]) = .ok (NewLeafListInt [100, 101])
    ∧ decenc (NewLeafListUint [100]) = .ok (NewLeafListUint [100])
    ∧ decenc (NewLeafListBool [true, false]) = .ok (NewLeafListBool [true, false])
    ∧ decenc (NewLeafListDecimal64 [(6, 0)]) = .ok (NewLeafListDecimal64 [(6, 0)])
    ∧ decenc (NewLeafListFloat [1, 2]) = .ok (NewLeafListFloat [1, 2])
    ∧ decenc (NewLeafListBytes [[97, 98, 99]]) = .ok (NewLeafListBytes [[97, 98, 99]])
    ∧ encdec (.scalar (.decimalVal 1234 2)) = .ok (deAscii (.scalar (.decimalVal 1234 2))) :=
  ⟨C1_roundtrip_amended.2.2.2.2.2.2.2.1 [1, 2, 3] (by decide),
   C1_roundtrip_amended.2.2.2.2.2.2.2.2.1 ["abc", "def"] (by decide),
   C1_roundtrip_amended.2.2.2.2.2.2.2.2.2.1 [100, 101] (by decide),
   C1_roundtrip_amended.2.2.2.2.2.2.2.2.2.2.1 [100] (by decide),
   C1_roundtrip_amended.2.2.2.2.2.2.2.2.2.2.2.1 [true, false] (by decide),
   C1_roundtrip_amended.2.2.2.2.2.2.2.2.2.2.2.2.1 [(6, 0)] (by decide),
   C1_roundtrip_amended.2.2.2.2.2.2.2.2.2.2.2.2.2.1 [1, 2] (by decide),
   C1_roundtrip_amended.2.2.2.2.2.2.2.2.2.2.2.2.2.2.1 [[97, 98, 99]] (by decide),
   C1_roundtrip_amended.2.2.2.2.2.2.2.2.2.2.2.2.2.2.2 (.scalar (.decimalVal 1234 2)) rfl⟩

/-- C3: snapshot-ID reversibility — for all networkID and deviceID strings not
containing the separator character, GetDeviceID applied to
GetSnapshotID(networkID, deviceID) returns deviceID. -/
theorem C3_snapshot_id_reversible (networkID deviceID : List Char)
    (hn : separator ∉ networkID) (_hd : separator ∉ deviceID) :
    GetDeviceID (GetSnapshotID networkID deviceID) = deviceID := by
  unfold GetDeviceID GetSnapshotID stringsIndex
  have hmem : separator ∈ networkID ++ separator :: deviceID := by simp
  rw [if_pos hmem, findIdx_append_sep separator networkID deviceID hn]
  have h1 : ((networkID.length : Int) + 1).toNat = networkID.length + 1 := by omega
  rw [h1]
  have h2 : networkID ++ separator :: deviceID = (networkID ++ [separator]) ++ deviceID := by
    simp
  rw [h2]
  have h3 : networkID.length + 1 = (networkID ++ [separator]).length := by simp
  rw [h3, List.drop_left]

/-- Concrete instance of C3 at networkID "n1" and deviceID "d2". -/
theorem C3_snapshot_id_reversible_witness :
    GetDeviceID (GetSnapshotID ['n', '1'] ['d', '2']) = ['d', '2'] :=
  C3_snapshot_id_reversible ['n', '1'] ['d', '2'] (by decide) (by decide)

/-- C2: watch replay completeness — with replay enabled the watch delivers
exactly the existing records, in creation order, before any record appended
after subscription (given that appended records carry fresh identifiers, as
the append-only store guarantees); with replay disabled it delivers zero
pre-existing records; and in the diags streaming surface withoutReplay=false
maps to the replay-enabled watch and withoutReplay=true to the
replay-disabled watch, for both the network- and device-change stores. -/
theorem C2_watch_replay (existing appended : List NetworkChange)
    (h : ∀ e ∈ appended, ∀ r ∈ existing, e.id ≠ r.id) :
    (watchDeliver existing appended (networkWatchOpts false)).take existing.length = existing
    ∧ (watchDeliver existing appended (networkWatchOpts false)).drop existing.length = appended
    ∧ watchDeliver existing appended (networkWatchOpts true) = appended
    ∧ replayEnabled (networkWatchOpts false) = true
    ∧ replayEnabled (networkWatchOpts true) = false
    ∧ replayEnabled (deviceWatchOpts false) = true
    ∧ replayEnabled (deviceWatchOpts true) = false := by
  have hfilter : appended.filter (fun e => !existing.any (fun r => r.id == e.id)) = appended := by
    apply List.filter_eq_self.mpr
    intro e he
    simp only [Bool.not_eq_true', List.any_eq_false]
    intro r hr eq
    exact h e he r hr (beq_iff_eq.mp eq).symm
  refine ⟨?_, ?_, rfl, rfl, rfl, rfl, rfl⟩
  · show (existing ++ appended.filter (fun e => !existing.any (fun r => r.id == e.id))).take
        existing.length = existing
    rw [hfilter, List.take_left]
  · show (existing ++ appended.filter (fun e => !existing.any (fun r => r.id == e.id))).drop
        existing.length = appended
    rw [hfilter, List.drop_left]

/-- Concrete instance of C2: two pre-existing records, one appended record
with a fresh identifier. -/
theorem C2_watch_replay_witness :
    (watchDeliver [⟨"a"⟩, ⟨"b"⟩] [⟨"c"⟩] (networkWatchOpts false)).take
        ([⟨"a"⟩, ⟨"b"⟩] : List NetworkChange).length = [⟨"a"⟩, ⟨"b"⟩]
    ∧ (watchDeliver [⟨"a"⟩, ⟨"b"⟩] [⟨"c"⟩] (networkWatchOpts false)).drop
        ([⟨"a"⟩, ⟨"b"⟩] : List NetworkChange).length = [⟨"c"⟩]
    ∧ watchDeliver [⟨"a"⟩, ⟨"b"⟩] [⟨"c"⟩] (networkWatchOpts true) = [⟨"c"⟩]
    ∧ replayEnabled (networkWatchOpts false) = true
    ∧ replayEnabled (networkWatchOpts true) = false
    ∧ replayEnabled (deviceWatchOpts false) = true
    ∧ replayEnabled (deviceWatchOpts true) = false :=
  C2_watch_replay [⟨"a"⟩, ⟨"b"⟩] [⟨"c"⟩] (by decide)

/-- C6: operational-state Get for an unknown device — a device with no entry
in the operational-state cache yields the no-cache-available error naming the
device (never an empty mapping), for both the plain and subscribing forms;
for a known device the call streams exactly one NONE-tagged path/value pair
per cache entry. -/
theorem C6_opstate_unknown_device (cache : OpStateCache) (deviceId : String) :
    (∀ subscribe inputs, lookupCache cache deviceId = none →
        GetOpState cache deviceId subscribe inputs
          = .error ("no Operational State cache available for " ++ deviceId))
    ∧ (∀ entries, lookupCache cache deviceId = some entries →
        GetOpState cache deviceId false []
            = .ok ⟨entries.map (fun pv => ⟨EventType.NONE, ⟨pv.1, pv.2⟩⟩), ⟨true, false, false⟩⟩
          ∧ (GetOpState cache deviceId false []).map (fun run => run.sent.length)
            = .ok entries.length) := by
  constructor
  · intro subscribe inputs hnone
    unfold GetOpState
    rw [hnone]
  · intro entries hsome
    unfold GetOpState
    rw [hsome]
    refine ⟨rfl, ?_⟩
    show Except.ok (entries.map (fun pv => (⟨EventType.NONE, ⟨pv.1, pv.2⟩⟩ : OpStateResponse))).length
      = Except.ok entries.length
    rw [List.length_map]

/-- Concrete instance of C6: a one-device cache, queried for the unknown
device "device-2" and the known device "device-1". -/
theorem C6_opstate_unknown_device_witness :
    GetOpState [("device-1", [("p", NewTypedValueBool true)])] "device-2" false []
        = .error ("no Operational State cache available for " ++ "device-2")
    ∧ GetOpState [("device-1", [("p", NewTypedValueBool true)])] "device-1" false []
        = .ok ⟨[("p", NewTypedValueBool true)].map
            (fun pv => ⟨EventType.NONE, ⟨pv.1, pv.2⟩⟩), ⟨true, false, false⟩⟩ :=
  ⟨(C6_opstate_unknown_device [("device-1", [("p", NewTypedValueBool true)])] "device-2").1
      false [] (by decide),
   ((C6_opstate_unknown_device [("device-1", [("p", NewTypedValueBool true)])] "device-1").2
      [("p", NewTypedValueBool true)] (by decide)).1⟩

/-- C4: width-hint override — decoding a wire integer with an explicit 32-bit
hint yields width metadata 32 with the numeric value taken from the wire
payload, while decoding the same wire value without a hint yields the widest
default width 64; likewise for unsigned integers. -/
theorem C4_width_hint_override (i : Int) (u : Nat) :
    GnmiTypedValueToNativeType (.scalar (.intVal i))
        (some ⟨ValueType_INT, [WidthThirtyTwo]⟩) = .ok (NewTypedValueInt i 32)
    ∧ GnmiTypedValueToNativeType (.scalar (.intVal i)) none = .ok (NewTypedValueInt i 64)
    ∧ GnmiTypedValueToNativeType (.scalar (.uintVal u))
        (some ⟨ValueType_UINT, [WidthThirtyTwo]⟩) = .ok (NewTypedValueUint u 32)
    ∧ GnmiTypedValueToNativeType (.scalar (.uintVal u)) none = .ok (NewTypedValueUint u 64) :=
  ⟨rfl, rfl, rfl, rfl⟩

/-- C5: encoding a Bytes-tagged value with a zero-length payload fails with
the invalid-length error, encoding a value with the unknown type tag 99 fails
with the unsupported-type error, and neither produces any output value. -/
theorem C5_encode_errors :
    NativeTypeToGnmiTypedValue ⟨ValueType_BYTES, .scalar (.bytes []), []⟩
        = .error "invalid TypedValue Length 0"
    ∧ (NativeTypeToGnmiTypedValue ⟨ValueType_BYTES, .scalar (.bytes []), []⟩).toOption = none
    ∧ NativeTypeToGnmiTypedValue ⟨99, .scalar (.bytes [0, 0, 0, 0]), []⟩
        = .error "Unsupported type 99"
    ∧ (NativeTypeToGnmiTypedValue ⟨99, .scalar (.bytes [0, 0, 0, 0]), []⟩).toOption = none :=
  ⟨rfl, rfl, rfl, rfl⟩

/-- C7: wildcard filtering — the glob pattern is translated once per call into
a matcher (MatchWildcardChNameRegexp pattern) reused for every candidate;
matching is anchored full-string with star as a multi-character wildcard
("foo-*" matches "foo-1" and "foo-bar" but not "bar-foo" or "xfoo-1", and a
star-free pattern matches only its exact self); over a stream of candidate
records both the subscribe loop and the list phase deliver exactly the
matching records, silently skipping the rest, and neither ever surfaces a
non-matching record as an error. -/
theorem C7_wildcard_filtering :
    MatchWildcardChNameRegexp "foo-*" "foo-1" = true
    ∧ MatchWildcardChNameRegexp "foo-*" "foo-bar" = true
    ∧ MatchWildcardChNameRegexp "foo-*" "bar-foo" = false
    ∧ MatchWildcardChNameRegexp "foo-*" "xfoo-1" = false
    ∧ MatchWildcardChNameRegexp "foo-*" "foo-" = true
    ∧ MatchWildcardChNameRegexp "foo" "foo" = true
    ∧ MatchWildcardChNameRegexp "foo" "foox" = false
    ∧ MatchWildcardChNameRegexp "foo" "xfoo" = false
    ∧ (∀ (pat : String) (recs : List NetworkChange),
        (listNetworkChangesLoop pat (recs.map .event)).1
          = recs.filter (fun c => MatchWildcardChNameRegexp pat c.id))
    ∧ (∀ (pat : String) (recs : List NetworkChange),
        (listNetworkChangesListPhase pat (recs.map .event)).1
          = recs.filter (fun c => MatchWildcardChNameRegexp pat c.id))
    ∧ (∀ (pat : String) (inputs : List WatchInput),
        (listNetworkChangesLoop pat inputs).2.errored = false)
    ∧ (∀ (pat : String) (inputs : List WatchInput),
        (listNetworkChangesListPhase pat inputs).2.errored = false) :=
  ⟨by decide, by decide, by decide, by decide, by decide, by decide, by decide, by decide,
   listNetworkChangesLoop_filter, listNetworkChangesListPhase_filter,
   listNetworkChangesLoop_no_error, listNetworkChangesListPhase_no_error⟩

/-- The GetOpState subscribe loop, on the firing of the stream context,
stops (ignoring later arrivals), unregisters the listener, and returns nil
with only the responses produced before the cancellation. -/
theorem opStateLoop_cancel (dev : String) (pre post : List LoopInput)
    (h : LoopInput.cancelled ∉ pre) :
    opStateSubscribeLoop dev (pre ++ .cancelled :: post)
      = ((opStateSubscribeLoop dev pre).1, ⟨true, true, false⟩) := by
  induction pre with
  | nil => rfl
  | cons i pre ih =>
      cases i with
      | cancelled => exact absurd (List.mem_cons_self _ _) h
      | event e =>
          have h2 : LoopInput.cancelled ∉ pre := fun hm => h (List.mem_cons_of_mem _ hm)
          simp only [List.cons_append, opStateSubscribeLoop]
          cases he : (e.subject == dev) with
          | true => simp [he, ih h2]
          | false => simp [he, ih h2]

/-- The ListNetworkChanges subscribe loop, on the firing of the stream
context, stops, closes the watch context through the deferred Close, and
returns nil with only the responses produced before the cancellation. -/
theorem networkLoop_cancel (pat : String) (pre post : List WatchInput)
    (h1 : WatchInput.cancelled ∉ pre) (h2 : WatchInput.closed ∉ pre) :
    listNetworkChangesLoop pat (pre ++ .cancelled :: post)
      = ((listNetworkChangesLoop pat pre).1, ⟨true, true, false⟩) := by
  induction pre with
  | nil => rfl
  | cons i pre ih =>
      cases i with
      | cancelled => exact absurd (List.mem_cons_self _ _) h1
      | closed => exact absurd (List.mem_cons_self _ _) h2
      | event c =>
          have h12 : WatchInput.cancelled ∉ pre := fun hm => h1 (List.mem_cons_of_mem _ hm)
          have h22 : WatchInput.closed ∉ pre := fun hm => h2 (List.mem_cons_of_mem _ hm)
          simp only [List.cons_append, listNetworkChangesLoop]
          cases hm : MatchWildcardChNameRegexp pat c.id with
          | true => simp [hm, ih h12 h22]
          | false => simp [hm, ih h12 h22]

/-- The ListDeviceChanges subscribe loop, on the firing of the stream
context, stops, closes the watch context through the deferred Close, and
returns nil with only the responses produced before the cancellation. -/
theorem deviceLoop_cancel (pre post : List WatchInput)
    (h1 : WatchInput.cancelled ∉ pre) (h2 : WatchInput.closed ∉ pre) :
    listDeviceChangesLoop (pre ++ .cancelled :: post)
      = ((listDeviceChangesLoop pre).1, ⟨true, true, false⟩) := by
  induction pre with
  | nil => rfl
  | cons i pre ih =>
      cases i with
      | cancelled => exact absurd (List.mem_cons_self _ _) h1
      | closed => exact absurd (List.mem_cons_self _ _) h2
      | event c =>
          have h12 : WatchInput.cancelled ∉ pre := fun hm => h1 (List.mem_cons_of_mem _ hm)
          have h22 : WatchInput.closed ∉ pre := fun hm => h2 (List.mem_cons_of_mem _ hm)
          simp only [List.cons_append, listDeviceChangesLoop]
          simp [ih h12 h22]

/-- C8: cancellation is not a failure — for each stream-producing loop
(GetOpState with subscribe, ListNetworkChanges, ListDeviceChanges), when the
caller's cancellation signal fires the loop stops (later arrivals are
ignored), releases its subscription registration (the listener is
unregistered, the watch context is closed), and returns without error; only
the responses produced before the cancellation are delivered. -/
theorem C8_cancellation (dev pat : String) (pre post : List LoopInput)
    (wpre wpost dpre dpost : List WatchInput)
    (h1 : LoopInput.cancelled ∉ pre)
    (h2 : WatchInput.cancelled ∉ wpre) (h3 : WatchInput.closed ∉ wpre)
    (h4 : WatchInput.cancelled ∉ dpre) (h5 : WatchInput.closed ∉ dpre) :
    opStateSubscribeLoop dev (pre ++ .cancelled :: post)
      = ((opStateSubscribeLoop dev pre).1, ⟨true, true, false⟩)
    ∧ listNetworkChangesLoop pat (wpre ++ .cancelled :: wpost)
      = ((listNetworkChangesLoop pat wpre).1, ⟨true, true, false⟩)
    ∧ listDeviceChangesLoop (dpre ++ .cancelled :: dpost)
      = ((listDeviceChangesLoop dpre).1, ⟨true, true, false⟩) :=
  ⟨opStateLoop_cancel dev pre post h1, networkLoop_cancel pat wpre wpost h2 h3,
   deviceLoop_cancel dpre dpost h4 h5⟩

/-- Concrete instance of C8: one event before the cancellation, one after. -/
theorem C8_cancellation_witness :
    opStateSubscribeLoop "d"
        ([.event ⟨"d", .ADDED, "p", NewTypedValueBool true⟩] ++ .cancelled ::
          [.event ⟨"d", .ADDED, "q", NewTypedValueBool false⟩])
      = ((opStateSubscribeLoop "d" [.event ⟨"d", .ADDED, "p", NewTypedValueBool true⟩]).1,
          ⟨true, true, false⟩)
    ∧ listNetworkChangesLoop "*" ([.event ⟨"a"⟩] ++ .cancelled :: [.event ⟨"b"⟩])
      = ((listNetworkChangesLoop "*" [.event ⟨"a"⟩]).1, ⟨true, true, false⟩)
    ∧ listDeviceChangesLoop ([.event ⟨"a"⟩] ++ .cancelled :: [.event ⟨"b"⟩])
      = ((listDeviceChangesLoop [.event ⟨"a"⟩]).1, ⟨true, true, false⟩) :=
  C8_cancellation "d" "*" [.event ⟨"d", .ADDED, "p", NewTypedValueBool true⟩]
    [.event ⟨"d", .ADDED, "q", NewTypedValueBool false⟩]
    [.event ⟨"a"⟩] [.event ⟨"b"⟩] [.event ⟨"a"⟩] [.event ⟨"b"⟩]
    (by decide) (by decide) (by decide) (by decide) (by decide)

/-- Every response the GetOpState subscribe loop delivers comes from an event
on the listener channel whose subject is the requested device. -/
theorem opStateLoop_mem_event (dev : String) (inputs : List LoopInput)
    (r : OpStateResponse) (hr : r ∈ (opStateSubscribeLoop dev inputs).1) :
    ∃ e : OpStateEvent, LoopInput.event e ∈ inputs ∧ e.subject = dev
      ∧ r = mkOpStateLiveResponse e := by
  induction inputs with
  | nil => exact absurd hr (List.not_mem_nil r)
  | cons i rest ih =>
      cases i with
      | cancelled => exact absurd hr (List.not_mem_nil r)
      | event e =>
          simp only [opStateSubscribeLoop] at hr
          cases he : (e.subject == dev) with
          | false =>
              rw [he] at hr
              simp only [Bool.false_eq_true, if_false] at hr
              obtain ⟨e2, hmem, hsub, hre⟩ := ih hr
              exact ⟨e2, List.mem_cons_of_mem _ hmem, hsub, hre⟩
          | true =>
              rw [he] at hr
              simp only [if_true] at hr
              cases List.mem_cons.mp hr with
              | inl hhead =>
                  exact ⟨e, List.mem_cons_self _ _, beq_iff_eq.mp he, hhead⟩
              | inr htail =>
                  obtain ⟨e2, hmem, hsub, hre⟩ := ih htail
                  exact ⟨e2, List.mem_cons_of_mem _ hmem, hsub, hre⟩

/-- C9: device isolation of the GetOpState subscribe stream — every response
the loop delivers originates from an operational-state event whose subject
equals the requested device; events for other devices are skipped before any
send and can never reach the stream. -/
theorem C9_opstate_device_isolation (dev : String) (inputs : List LoopInput)
    (r : OpStateResponse) (hr : r ∈ (opStateSubscribeLoop dev inputs).1) :
    ∃ e : OpStateEvent, LoopInput.event e ∈ inputs ∧ e.subject = dev
      ∧ r = mkOpStateLiveResponse e :=
  opStateLoop_mem_event dev inputs r hr

/-- Concrete instance of C9: a two-device input stream queried for
device-1; the delivered response traces back to the device-1 event. -/
theorem C9_opstate_device_isolation_witness :
    ∃ e : OpStateEvent,
      LoopInput.event e ∈ [LoopInput.event ⟨"device-2", .ADDED, "q", NewTypedValueBool false⟩,
        LoopInput.event ⟨"device-1", .ADDED, "p", NewTypedValueBool true⟩]
      ∧ e.subject = "device-1"
      ∧ (⟨EventType.ADDED, ⟨"p", NewTypedValueBool true⟩⟩ : OpStateResponse)
          = mkOpStateLiveResponse e :=
  C9_opstate_device_isolation "device-1"
    [LoopInput.event ⟨"device-2", .ADDED, "q", NewTypedValueBool false⟩,
      LoopInput.event ⟨"device-1", .ADDED, "p", NewTypedValueBool true⟩]
    ⟨EventType.ADDED, ⟨"p", NewTypedValueBool true⟩⟩ (by decide)

/-- C10: every response of the initial cache drain carries event type NONE;
every response of the live subscribe phase carries event type ADDED, whatever
the kind of the underlying operational-state event; and every successful
subscribing GetOpState run is exactly the NONE-tagged drain followed by the
ADDED-tagged live responses. -/
theorem C10_opstate_event_types (dev : String) (inputs : List LoopInput) :
    (∀ entries, ∀ r ∈ opStateSnapshot entries, r.type = EventType.NONE)
    ∧ (∀ r ∈ (opStateSubscribeLoop dev inputs).1, r.type = EventType.ADDED)
    ∧ (∀ cache run, GetOpState cache dev true inputs = .ok run →
        ∃ entries, lookupCache cache dev = some entries
          ∧ run.sent = opStateSnapshot entries ++ (opStateSubscribeLoop dev inputs).1) := by
  refine ⟨?_, ?_, ?_⟩
  · intro entries r hr
    obtain ⟨pv, _, rfl⟩ := List.mem_map.mp hr
    rfl
  · intro r hr
    obtain ⟨e, _, _, rfl⟩ := opStateLoop_mem_event dev inputs r hr
    rfl
  · intro cache run h
    unfold GetOpState at h
    cases hl : lookupCache cache dev with
    | none => rw [hl] at h; exact absurd h (fun he => Except.noConfusion he)
    | some entries =>
        rw [hl] at h
        simp only [if_true] at h
        refine ⟨entries, rfl, ?_⟩
        cases h
        rfl

/-- Concrete instance of C10: a one-entry cache and one live event whose
underlying kind is REMOVED, still delivered as ADDED after the NONE drain. -/
theorem C10_opstate_event_types_witness :
    ((⟨EventType.NONE, ⟨"p", NewTypedValueBool true⟩⟩ : OpStateResponse).type = EventType.NONE)
    ∧ ((⟨EventType.ADDED, ⟨"q", NewTypedValueBool false⟩⟩ : OpStateResponse).type
        = EventType.ADDED)
    ∧ (∃ entries, lookupCache [("d", [("p", NewTypedValueBool true)])] "d" = some entries
        ∧ (GetOpStateRun.mk
            [⟨EventType.NONE, ⟨"p", NewTypedValueBool true⟩⟩,
              ⟨EventType.ADDED, ⟨"q", NewTypedValueBool false⟩⟩] ⟨false, false, false⟩).sent
          = opStateSnapshot entries
            ++ (opStateSubscribeLoop "d"
                  [.event ⟨"d", .REMOVED, "q", NewTypedValueBool false⟩]).1) :=
  ⟨(C10_opstate_event_types "d" [.event ⟨"d", .REMOVED, "q", NewTypedValueBool false⟩]).1
      [("p", NewTypedValueBool true)]
      ⟨EventType.NONE, ⟨"p", NewTypedValueBool true⟩⟩ (by decide),
   (C10_opstate_event_types "d" [.event ⟨"d", .REMOVED, "q", NewTypedValueBool false⟩]).2.1
      ⟨EventType.ADDED, ⟨"q", NewTypedValueBool false⟩⟩ (by decide),
   (C10_opstate_event_types "d" [.event ⟨"d", .REMOVED, "q", NewTypedValueBool false⟩]).2.2
      [("d", [("p", NewTypedValueBool true)])]
      (GetOpStateRun.mk
        [⟨EventType.NONE, ⟨"p", NewTypedValueBool true⟩⟩,
          ⟨EventType.ADDED, ⟨"q", NewTypedValueBool false⟩⟩] ⟨false, false, false⟩)
      rfl⟩

end OnosConfig
